import Mathlib

/-!
Verification of the phalconScaper pipeline (src/phalconScaper.py).

The program is a linear fetch → transform → write pipeline:
  make_request posts to a fixed URL and returns the parsed JSON body, or
  None when the response body is empty; process_data turns the body's
  "list" entries into AttackIncident objects (converting each transaction
  timestamp with convert_txn_date); write_to_csv serializes the incidents
  to a comma-delimited text file.

Python strings are embedded as lists of characters (Chars); Python dict
subscripting is embedded as getKey over Option fields, raising a KeyError
value in the Except monad exactly when the key is absent.
-/

/-- Python strings are modelled as lists of characters. -/
abbrev Chars := List Char

/-- Model of the Python str.split(sep) method for a one-character
separator: splits a character list at every occurrence of the separator,
keeping empty pieces.  Used by convert_txn_date (split on a comma) and to
state facts about the physical lines of the produced file (split on a
newline). -/
def pySplit (sep : Char) : List Char → List (List Char)
  | [] => [[]]
  | c :: rest =>
    if c = sep then [] :: pySplit sep rest
    else
      match pySplit sep rest with
      | [] => [[c]]
      | h :: t => (c :: h) :: t

/-- The ASCII character of a decimal digit (only ever applied to values
below ten). -/
def digitChar (n : Nat) : Char := Char.ofNat (48 + n % 10)

/-- Decimal rendering of a natural number, fuel-indexed so that it is
structurally recursive.  The fuel is always sufficient when called from
natChars. -/
def natCharsAux : Nat → Nat → List Char
  | 0, _ => []
  | fuel + 1, n =>
    if n < 10 then [digitChar n]
    else natCharsAux fuel (n / 10) ++ [digitChar (n % 10)]

/-- Decimal rendering of a natural number, as produced for the %Y field
of strftime (no padding; all years in range have four digits). -/
def natChars (n : Nat) : List Char := natCharsAux (n + 1) n

/-- Two-digit zero-padded decimal rendering, as produced by the %m, %d,
%H and %M fields of strftime. -/
def pad2 (n : Nat) : List Char := if n < 10 then '0' :: natChars n else natChars n

/-- Civil (proleptic Gregorian) date from a count of days since
1970-01-01, as computed by datetime.utcfromtimestamp for nonnegative
timestamps.  Returns (year, month, day). -/
def civilFromDays (days : Nat) : Nat × Nat × Nat :=
  let z := days + 719468
  let era := z / 146097
  let doe := z % 146097
  let yoe := (doe - doe / 1460 + doe / 36524 - doe / 146096) / 365
  let y := yoe + era * 400
  let doy := doe - (365 * yoe + yoe / 4 - yoe / 100)
  let mp := (5 * doy + 2) / 153
  let d := doy - (153 * mp + 2) / 5 + 1
  let m := if mp < 10 then mp + 3 else mp - 9
  (if m ≤ 2 then y + 1 else y, m, d)

/-- Seconds since the epoch, as computed by txn_hash_date / 1000 in
convert_txn_date (for epoch-millisecond inputs the division is exact up
to the discarded sub-second remainder, which strftime never displays). -/
def secondsOf (ms : Nat) : Nat := ms / 1000

/-- Day count of the UTC instant, as exposed by datetime.utcfromtimestamp. -/
def daysOf (ms : Nat) : Nat := secondsOf ms / 86400

/-- UTC calendar year of the instant. -/
def yearOf (ms : Nat) : Nat := (civilFromDays (daysOf ms)).1

/-- UTC calendar month of the instant. -/
def monthOf (ms : Nat) : Nat := (civilFromDays (daysOf ms)).2.1

/-- UTC calendar day-of-month of the instant. -/
def dayOf (ms : Nat) : Nat := (civilFromDays (daysOf ms)).2.2

/-- UTC hour of day of the instant (the %H field). -/
def hourOf (ms : Nat) : Nat := secondsOf ms % 86400 / 3600

/-- UTC minute of hour of the instant (the %M field). -/
def minuteOf (ms : Nat) : Nat := secondsOf ms % 3600 / 60

/-- The string produced by date_obj.strftime of the format
%Y-%m-%d , %H:%M in convert_txn_date. -/
def fmtChars (ms : Nat) : Chars :=
  natChars (yearOf ms) ++ ['-'] ++ pad2 (monthOf ms) ++ ['-'] ++ pad2 (dayOf ms)
    ++ [' ', ',', ' '] ++ pad2 (hourOf ms) ++ [':'] ++ pad2 (minuteOf ms)

/-- Embedding of convert_txn_date: formats the UTC instant of an
epoch-millisecond timestamp with strftime and destructures the result of
splitting it on the comma into the returned (date, time) pair.  The
source unpacks the split into exactly two variables; the split always
has exactly two pieces (the formatted string contains exactly one comma,
see convert_txn_date_eq_parts), embedded here as taking the first and
second piece. -/
def convert_txn_date (ms : Nat) : Chars × Chars :=
  ((pySplit ',' (fmtChars ms)).headD [], (pySplit ',' (fmtChars ms)).tail.headD [])

/-- A normalized transaction as built inside AttackIncident.__init__:
the dictionary with keys tx_hash, tx_date, tx_time, tx_chain. -/
structure Txn where
  tx_hash : Chars
  tx_date : Chars
  tx_time : Chars
  tx_chain : Chars
deriving DecidableEq, Repr

/-- The AttackIncident object after __init__ has run: the raw
transactions have been converted to Txn values. -/
structure AttackIncident where
  project : Chars
  loss : Chars
  vulnerability : Chars
  transactions : List Txn
  rootCause : Chars
deriving DecidableEq, Repr

/-- A raw transaction dictionary from the JSON body; each field is
present (some) or absent (none), modelling dynamic dict keys.  Scalar
JSON values are embedded by their textual rendering. -/
structure RawTxn where
  txnHash : Option Chars
  txnHashDate : Option Nat
  chainId : Option Chars
deriving DecidableEq, Repr

/-- A raw incident record from the list field of the JSON body. -/
structure RawRecord where
  project : Option Chars
  loss : Option Chars
  rootCause : Option Chars
  media : Option Chars
  transactions : Option (List RawTxn)
deriving DecidableEq, Repr

/-- The parsed JSON response body. -/
structure RawData where
  list : Option (List RawRecord)
deriving DecidableEq, Repr

/-- Python runtime errors that the pipeline can raise. -/
inductive PyErr where
  | keyError (key : String)
  | typeError (msg : String)
deriving DecidableEq, Repr

/-- Python dict subscripting d[k]: yields the value when the key is
present and raises KeyError k otherwise. -/
def getKey : Option α → String → Except PyErr α
  | some v, _ => Except.ok v
  | none, k => Except.error (PyErr.keyError k)

/-- Body of the transaction loop of AttackIncident.__init__: reads
txnHash, converts txnHashDate, reads chainId, in the source's
subscripting order. -/
def convert_transaction (txn : RawTxn) : Except PyErr Txn := do
  let h ← getKey txn.txnHash "txnHash"
  let d ← getKey txn.txnHashDate "txnHashDate"
  let pair := convert_txn_date d
  let c ← getKey txn.chainId "chainId"
  return ⟨h, pair.1, pair.2, c⟩

/-- The transaction loop of AttackIncident.__init__, accumulating the
converted transactions in input order. -/
def convert_transactions : List RawTxn → Except PyErr (List Txn)
  | [] => Except.ok []
  | txn :: rest => do
    let t ← convert_transaction txn
    let ts ← convert_transactions rest
    return t :: ts

/-- Body of the loop of process_data: subscripts the raw record in the
source's argument order (project, loss, rootCause, transactions, media)
and runs AttackIncident.__init__ on the results. -/
def process_record (attack : RawRecord) : Except PyErr AttackIncident := do
  let project ← getKey attack.project "project"
  let loss ← getKey attack.loss "loss"
  let vulnerability ← getKey attack.rootCause "rootCause"
  let transactions ← getKey attack.transactions "transactions"
  let rootCause ← getKey attack.media "media"
  let txs ← convert_transactions transactions
  return ⟨project, loss, vulnerability, txs, rootCause⟩

/-- The loop of process_data over data['list'], appending each incident
in input order. -/
def process_records : List RawRecord → Except PyErr (List AttackIncident)
  | [] => Except.ok []
  | attack :: rest => do
    let incident ← process_record attack
    let tail ← process_records rest
    return incident :: tail

/-- Embedding of process_data, applied to the value returned by
make_request: subscripting None (the empty-response result) raises a
TypeError, a present dict is subscripted at the list key. -/
def process_data (data : Option RawData) : Except PyErr (List AttackIncident) :=
  match data with
  | none => Except.error (PyErr.typeError "NoneType object is not subscriptable")
  | some d =>
    match d.list with
    | none => Except.error (PyErr.keyError "list")
    | some records => process_records records

/-- Embedding of make_request: the HTTP round trip is a parameter
(response body text and the JSON parse of that text); the function
returns the parsed body when the text is non-empty and None otherwise,
as the source does. -/
def make_request (responseText : Chars) (parseJson : Chars → RawData) : Option RawData :=
  if responseText = [] then none else some (parseJson responseText)

/-- The header line written by write_to_csv (without its newline). -/
def header_row : Chars :=
  "Project, Loss, Vulnerability, root cause link, Transactions, Date, Time, Chain".data

/-- The incident-level cells written for one incident by the first
file.write of the loop in write_to_csv (note: no trailing newline). -/
def incidentCells (a : AttackIncident) : Chars :=
  a.project ++ [','] ++ a.loss ++ [','] ++ a.vulnerability ++ [','] ++ a.rootCause

/-- The transaction cells written for one transaction (without the
terminating newline): a leading comma then hash, date, time, chain. -/
def txnCellsBody (tx : Txn) : Chars :=
  [','] ++ tx.tx_hash ++ [','] ++ tx.tx_date ++ [','] ++ tx.tx_time ++ [','] ++ tx.tx_chain

/-- The transaction loop of write_to_csv: every transaction writes its
cells and a newline, and every transaction except the first (index 0)
first writes the placeholder cells of a space-comma run. -/
def txnRowsAux : Nat → List Txn → Chars
  | _, [] => []
  | i, tx :: rest =>
    (if i ≠ 0 then " , , ,".data else []) ++ (txnCellsBody tx ++ ['\n']) ++ txnRowsAux (i + 1) rest

/-- The incident loop of write_to_csv. -/
def writeIncidents : List AttackIncident → Chars
  | [] => []
  | a :: rest => incidentCells a ++ txnRowsAux 0 a.transactions ++ writeIncidents rest

/-- Embedding of write_to_csv as the full text written to
out/attack_incidents.csv: the header line then the incident loop. -/
def write_to_csv (l : List AttackIncident) : Chars :=
  header_row ++ ['\n'] ++ writeIncidents l

/-- The part of main downstream of the fetch: process_data on the fetch
result, then write_to_csv.  An ok result carries the text written to the
output file; an error result models an uncaught Python exception, raised
before the output file is opened. -/
def run_pipeline (fetched : Option RawData) : Except PyErr Chars :=
  match process_data fetched with
  | Except.error e => Except.error e
  | Except.ok incidents => Except.ok (write_to_csv incidents)

/-- Re-reading the scalar fields from the produced file: the first three
comma-separated fields of the first data line (the line after the
header), which the writer populates with project, loss, vulnerability. -/
def read_scalar_fields (file : Chars) : List Chars :=
  match pySplit '\n' file with
  | _ :: line :: _ => (pySplit ',' line).take 3
  | _ => []

/-! ### Helper lemmas about pySplit and decimal rendering -/

theorem pySplit_nil (sep : Char) : pySplit sep [] = [[]] := rfl

theorem pySplit_ne_nil (sep : Char) (L : List Char) : pySplit sep L ≠ [] := by
  induction L with
  | nil => simp [pySplit]
  | cons c rest ih =>
    by_cases hc : c = sep
    · simp [pySplit, hc]
    · simp only [pySplit, if_neg hc]
      cases h : pySplit sep rest with
      | nil => simp
      | cons a t => simp

theorem pySplit_append_sep (sep : Char) (A B : List Char) (h : sep ∉ A) :
    pySplit sep (A ++ sep :: B) = A :: pySplit sep B := by
  induction A with
  | nil => simp [pySplit]
  | cons a A ih =>
    have ha : ¬ a = sep := by
      intro hEq
      exact h (hEq ▸ List.mem_cons_self a A)
    have h' : sep ∉ A := fun hm => h (List.mem_cons_of_mem a hm)
    simp only [List.cons_append, pySplit, if_neg ha, List.append_eq]
    rw [ih h']

theorem pySplit_no_sep (sep : Char) (A : List Char) (h : sep ∉ A) :
    pySplit sep A = [A] := by
  induction A with
  | nil => rfl
  | cons a A ih =>
    have ha : ¬ a = sep := by
      intro hEq
      exact h (hEq ▸ List.mem_cons_self a A)
    have h' : sep ∉ A := fun hm => h (List.mem_cons_of_mem a hm)
    simp only [pySplit, if_neg ha, ih h']

theorem pySplit_head_prepend (sep : Char) (A B : List Char) (h : sep ∉ A) :
    (pySplit sep (A ++ B)).head? = some (A ++ (pySplit sep B).headD []) := by
  induction A with
  | nil =>
    cases hs : pySplit sep B with
    | nil => exact absurd hs (pySplit_ne_nil sep B)
    | cons x t => simp [hs]
  | cons a A ih =>
    have ha : ¬ a = sep := by
      intro hEq
      exact h (hEq ▸ List.mem_cons_self a A)
    have h' : sep ∉ A := fun hm => h (List.mem_cons_of_mem a hm)
    simp only [List.cons_append, pySplit, if_neg ha, List.append_eq]
    cases hs : pySplit sep (A ++ B) with
    | nil => exact absurd hs (pySplit_ne_nil sep (A ++ B))
    | cons x t =>
      have := ih h'
      rw [hs] at this
      simp only [List.head?_cons, Option.some_inj] at this
      simp [this]

theorem digitChar_ne_comma (n : Nat) : digitChar n ≠ ',' := by
  unfold digitChar
  have h : n % 10 < 10 := Nat.mod_lt _ (by norm_num)
  set k := n % 10 with hk
  interval_cases k <;> decide

theorem natCharsAux_ne_comma (fuel n : Nat) : ',' ∉ natCharsAux fuel n := by
  induction fuel generalizing n with
  | zero => simp [natCharsAux]
  | succ fuel ih =>
    simp only [natCharsAux]
    split
    · simp only [List.mem_singleton]
      exact fun hEq => digitChar_ne_comma n hEq.symm
    · intro hmem
      rcases List.mem_append.mp hmem with hmem | hmem
      · exact ih (n / 10) hmem
      · rcases List.mem_singleton.mp hmem with hEq
        exact digitChar_ne_comma (n % 10) hEq.symm

theorem natChars_ne_comma (n : Nat) : ',' ∉ natChars n := natCharsAux_ne_comma (n + 1) n

theorem pad2_ne_comma (n : Nat) : ',' ∉ pad2 n := by
  unfold pad2
  split
  · intro hmem
    rcases List.mem_cons.mp hmem with hEq | hmem
    · exact absurd hEq (by decide)
    · exact natChars_ne_comma n hmem
  · exact natChars_ne_comma n

/-! ### The two pieces of the formatted timestamp string -/

/-- The piece of the strftime output before the comma: the calendar date
followed by one space. -/
def datePartChars (ms : Nat) : Chars :=
  natChars (yearOf ms) ++ ['-'] ++ pad2 (monthOf ms) ++ ['-'] ++ pad2 (dayOf ms) ++ [' ']

/-- The piece of the strftime output after the comma: one space followed
by the 24-hour time. -/
def timePartChars (ms : Nat) : Chars :=
  [' '] ++ pad2 (hourOf ms) ++ [':'] ++ pad2 (minuteOf ms)

theorem fmtChars_eq_parts (ms : Nat) :
    fmtChars ms = datePartChars ms ++ ',' :: timePartChars ms := by
  unfold fmtChars datePartChars timePartChars
  simp only [List.append_assoc]
  rfl

theorem datePartChars_no_comma (ms : Nat) : ',' ∉ datePartChars ms := by
  intro hmem
  simp only [datePartChars, List.mem_append, List.mem_singleton] at hmem
  rcases hmem with (((((h | h) | h) | h) | h) | h)
  · exact natChars_ne_comma _ h
  · exact absurd h (by decide)
  · exact pad2_ne_comma _ h
  · exact absurd h (by decide)
  · exact pad2_ne_comma _ h
  · exact absurd h (by decide)

theorem timePartChars_no_comma (ms : Nat) : ',' ∉ timePartChars ms := by
  intro hmem
  simp only [timePartChars, List.mem_append, List.mem_singleton] at hmem
  rcases hmem with ((h | h) | h) | h
  · exact absurd h (by decide)
  · exact pad2_ne_comma _ h
  · exact absurd h (by decide)
  · exact pad2_ne_comma _ h

theorem pySplit_fmtChars (ms : Nat) :
    pySplit ',' (fmtChars ms) = [datePartChars ms, timePartChars ms] := by
  rw [fmtChars_eq_parts]
  rw [pySplit_append_sep ',' (datePartChars ms) (timePartChars ms) (datePartChars_no_comma ms)]
  rw [pySplit_no_sep ',' (timePartChars ms) (timePartChars_no_comma ms)]

theorem convert_txn_date_eq_parts (ms : Nat) :
    convert_txn_date ms = (datePartChars ms, timePartChars ms) := by
  rw [show convert_txn_date ms
        = ((pySplit ',' (fmtChars ms)).headD [], (pySplit ',' (fmtChars ms)).tail.headD [])
      from rfl]
  rw [pySplit_fmtChars ms, List.headD_cons, List.tail_cons, List.headD_cons]

/-! ### Claims about the date conversion (C4, C9, C10) -/

/-- C4, counterexample: the claim states that for input 1700000000000
the derived fields equal the date 2023-11-14 and the time 22:13; the
code returns those values with a trailing (resp. leading) space kept
from splitting the formatted string on the comma, so the fields are not
the bare date and time strings. -/
theorem c4_counterexample :
    convert_txn_date 1700000000000 ≠ ("2023-11-14".data, "22:13".data) := by decide

/-- C4, amended: the conversion is a pure function of the
epoch-millisecond timestamp computed in UTC, and for input 1700000000000
it returns the UTC calendar date 2023-11-14 and time-of-day 22:13 of
that instant, each carrying one space left over from splitting the
single formatted string on the comma. -/
theorem c4_utc_fields :
    convert_txn_date 1700000000000 = ("2023-11-14 ".data, " 22:13".data) := by decide

/-- C9: for every input timestamp the date field ends with a trailing
space character and the time field begins with a leading space
character, the artifact of splitting the formatted string on the comma,
so neither field is the bare ISO date or bare 24-hour time. -/
theorem c9_space_artifacts (ms : Nat) :
    (convert_txn_date ms).1.getLast? = some ' ' ∧
      (convert_txn_date ms).2.head? = some ' ' := by
  have h1 : (convert_txn_date ms).1 = datePartChars ms := by
    rw [convert_txn_date_eq_parts]
  have h2 : (convert_txn_date ms).2 = timePartChars ms := by
    rw [convert_txn_date_eq_parts]
  constructor
  · conv_lhs => rw [h1, datePartChars]
    exact List.getLast?_concat _
  · conv_lhs => rw [h2, timePartChars, List.append_assoc, List.append_assoc,
      List.singleton_append]
    exact List.head?_cons

/-- C10: the conversion discards sub-minute precision: two
epoch-millisecond timestamps in the same UTC calendar minute (equal
floor division by 60000) convert to identical date and time strings. -/
theorem c10_minute_resolution (a b : Nat) (h : a / 60000 = b / 60000) :
    convert_txn_date a = convert_txn_date b := by
  have hdays : daysOf a = daysOf b := by
    simp only [daysOf, secondsOf]
    omega
  have hhour : hourOf a = hourOf b := by
    simp only [hourOf, secondsOf]
    omega
  have hmin : minuteOf a = minuteOf b := by
    simp only [minuteOf, secondsOf]
    omega
  have hfmt : fmtChars a = fmtChars b := by
    simp only [fmtChars, yearOf, monthOf, dayOf, hdays, hhour, hmin]
  exact congrArg (fun s => ((pySplit ',' s).headD [], (pySplit ',' s).tail.headD [])) hfmt

/-- Witness for C10: the timestamps 1700000000000 and 1700000039999
fall in the same UTC minute and convert identically. -/
theorem c10_witness :
    convert_txn_date 1700000000000 = convert_txn_date 1700000039999 :=
  c10_minute_resolution 1700000000000 1700000039999 (by decide)

/-! ### Helper lemmas about the transform stage -/

theorem except_bind_ok (a : α) (f : α → Except PyErr β) :
    (Except.ok a >>= f) = f a := rfl

theorem except_bind_error (e : PyErr) (f : α → Except PyErr β) :
    ((Except.error e : Except PyErr α) >>= f) = Except.error e := rfl

theorem except_pure (a : α) : (pure a : Except PyErr α) = Except.ok a := rfl

theorem convert_transaction_ok (txn : RawTxn) (t : Txn)
    (h : convert_transaction txn = Except.ok t) :
    txn.txnHash = some t.tx_hash ∧ txn.chainId = some t.tx_chain := by
  rcases txn with ⟨_ | hsh, _ | d, _ | c⟩ <;>
    simp only [convert_transaction, getKey, except_bind_ok, except_bind_error,
      except_pure] at h <;>
    try exact Except.noConfusion h
  rcases Except.ok.inj h with rfl
  exact ⟨rfl, rfl⟩

theorem convert_transactions_ok (txs : List RawTxn) (ts : List Txn)
    (h : convert_transactions txs = Except.ok ts) :
    ts.length = txs.length ∧
      ∀ i (h1 : i < txs.length) (h2 : i < ts.length),
        convert_transaction txs[i] = Except.ok ts[i] := by
  induction txs generalizing ts with
  | nil =>
    simp only [convert_transactions] at h
    rcases Except.ok.inj h with rfl
    exact ⟨rfl, fun i h1 _ => absurd h1 (Nat.not_lt_zero i)⟩
  | cons txn rest ih =>
    simp only [convert_transactions, except_pure] at h
    cases ht : convert_transaction txn with
    | error e => rw [ht, except_bind_error] at h; exact Except.noConfusion h
    | ok t =>
      rw [ht, except_bind_ok] at h
      cases hr : convert_transactions rest with
      | error e => rw [hr, except_bind_error] at h; exact Except.noConfusion h
      | ok tail =>
        rw [hr, except_bind_ok] at h
        rcases Except.ok.inj h with rfl
        rcases ih tail hr with ⟨hlen, hget⟩
        refine ⟨by simp [hlen], ?_⟩
        intro i h1 h2
        cases i with
        | zero => simpa using ht
        | succ j =>
          simp only [List.getElem_cons_succ]
          exact hget j (Nat.lt_of_succ_lt_succ h1) (Nat.lt_of_succ_lt_succ h2)

theorem process_record_ok (r : RawRecord) (inc : AttackIncident)
    (h : process_record r = Except.ok inc) :
    r.project = some inc.project ∧ r.loss = some inc.loss ∧
      r.rootCause = some inc.vulnerability ∧ r.media = some inc.rootCause ∧
      ∀ txs, r.transactions = some txs →
        convert_transactions txs = Except.ok inc.transactions := by
  rcases r with ⟨_ | p, _ | l, _ | v, _ | m, _ | t⟩ <;>
    simp only [process_record, getKey, except_bind_ok, except_bind_error, except_pure] at h <;>
    try exact Except.noConfusion h
  cases ht : convert_transactions t with
  | error e => rw [ht, except_bind_error] at h; exact Except.noConfusion h
  | ok ts =>
    rw [ht, except_bind_ok] at h
    rcases Except.ok.inj h with rfl
    exact ⟨rfl, rfl, rfl, rfl, fun txs htxs => by rcases Option.some.inj htxs with rfl; exact ht⟩

theorem process_records_ok (rs : List RawRecord) (incs : List AttackIncident)
    (h : process_records rs = Except.ok incs) :
    incs.length = rs.length ∧
      ∀ i (h1 : i < rs.length) (h2 : i < incs.length),
        process_record rs[i] = Except.ok incs[i] := by
  induction rs generalizing incs with
  | nil =>
    simp only [process_records] at h
    rcases Except.ok.inj h with rfl
    exact ⟨rfl, fun i h1 _ => absurd h1 (Nat.not_lt_zero i)⟩
  | cons r rest ih =>
    simp only [process_records, except_pure] at h
    cases hr : process_record r with
    | error e => rw [hr, except_bind_error] at h; exact Except.noConfusion h
    | ok inc =>
      rw [hr, except_bind_ok] at h
      cases hrest : process_records rest with
      | error e => rw [hrest, except_bind_error] at h; exact Except.noConfusion h
      | ok tail =>
        rw [hrest, except_bind_ok] at h
        rcases Except.ok.inj h with rfl
        rcases ih tail hrest with ⟨hlen, hget⟩
        refine ⟨by simp [hlen], ?_⟩
        intro i h1 h2
        cases i with
        | zero => simpa using hr
        | succ j =>
          simp only [List.getElem_cons_succ]
          exact hget j (Nat.lt_of_succ_lt_succ h1) (Nat.lt_of_succ_lt_succ h2)

/-! ### Claims about the fetch and transform stages (C1, C5, C6, C8) -/

/-- C1: the claim states that on an empty HTTP response body the fetcher
returns a null result and the program then terminates gracefully with no
exception escaping any downstream stage.  The fetcher does return None,
but main passes that None straight to process_data, whose subscript
data['list'] raises an uncaught TypeError; the output file is never
written (the error precedes write_to_csv), but an exception does escape,
contradicting the claim. -/
theorem c1_empty_response_crashes (parseJson : Chars → RawData) :
    make_request [] parseJson = none ∧
      run_pipeline (make_request [] parseJson) =
        Except.error (PyErr.typeError "NoneType object is not subscriptable") := by
  constructor
  · rfl
  · rfl

/-- C5: the claim states that the media key is optional and a record
with project, loss, rootCause and transactions but no media key still
transforms into a valid Incident.  The code subscripts attack['media']
unconditionally, so such a record raises KeyError 'media' at the
transform stage instead: here a fully-populated record lacking only
media makes process_data raise. -/
theorem c5_missing_media_raises :
    process_data (some ⟨some [⟨some "Uniswap".data, some "100".data,
        some "reentrancy".data, none, some []⟩]⟩) =
      Except.error (PyErr.keyError "media") := rfl

/-- C6: a raw record missing the project key makes the transform stage
fail fast with the structural missing-field error KeyError 'project',
and the pipeline yields no output text (an error result, so nothing is
written), for any such record at the head of the list and any trailing
records. -/
theorem c6_missing_project_fails_fast (r : RawRecord) (rest : List RawRecord)
    (h : r.project = none) :
    run_pipeline (some ⟨some (r :: rest)⟩) = Except.error (PyErr.keyError "project") := by
  have hrec : process_record r = Except.error (PyErr.keyError "project") := by
    rcases r with ⟨p, l, v, m, t⟩
    cases h
    rfl
  simp only [run_pipeline, process_data, process_records, hrec, except_bind_error]

/-- Witness for C6 at a concrete record with no keys at all. -/
theorem c6_witness :
    run_pipeline (some ⟨some [⟨none, none, none, none, none⟩]⟩) =
      Except.error (PyErr.keyError "project") :=
  c6_missing_project_fails_fast ⟨none, none, none, none, none⟩ [] rfl

/-- C8: when process_data succeeds on a parsed response containing a
list field, it produces one Incident per raw record, in the same order
(the incident at every index is the processed record at that index, and
carries that record's project); within each incident the transactions
preserve count and order of the record's transaction entries, each
keeping its input txnHash and chainId. -/
theorem c8_order_preservation (d : RawData) (records : List RawRecord)
    (incs : List AttackIncident) (hl : d.list = some records)
    (hp : process_data (some d) = Except.ok incs) :
    incs.length = records.length ∧
      ∀ i (h1 : i < records.length) (h2 : i < incs.length),
        records[i].project = some incs[i].project ∧
          ∀ txs, records[i].transactions = some txs →
            incs[i].transactions.length = txs.length ∧
              ∀ j (j1 : j < txs.length) (j2 : j < incs[i].transactions.length),
                txs[j].txnHash = some (incs[i].transactions[j]).tx_hash ∧
                  txs[j].chainId = some (incs[i].transactions[j]).tx_chain := by
  simp only [process_data, hl] at hp
  rcases process_records_ok records incs hp with ⟨hlen, hget⟩
  refine ⟨hlen, ?_⟩
  intro i h1 h2
  have hrec := hget i h1 h2
  rcases process_record_ok records[i] incs[i] hrec with ⟨hproj, _, _, _, htx⟩
  refine ⟨hproj, ?_⟩
  intro txs htxs
  have hconv := htx txs htxs
  rcases convert_transactions_ok txs incs[i].transactions hconv with ⟨htlen, htget⟩
  refine ⟨htlen, ?_⟩
  intro j j1 j2
  exact convert_transaction_ok txs[j] (incs[i].transactions[j]) (htget j j1 j2)

/-- Witness for C8: a one-record response with one transaction,
processed concretely. -/
theorem c8_witness :
    ([⟨"p".data, "1".data, "v".data,
        [⟨"h".data, "1970-01-01 ".data, " 00:00".data, "c".data⟩], "m".data⟩] :
      List AttackIncident).length =
    ([⟨some "p".data, some "1".data, some "v".data, some "m".data,
        some [⟨some "h".data, some 0, some "c".data⟩]⟩] : List RawRecord).length :=
  (c8_order_preservation
    ⟨some [⟨some "p".data, some "1".data, some "v".data, some "m".data,
      some [⟨some "h".data, some 0, some "c".data⟩]⟩]⟩
    [⟨some "p".data, some "1".data, some "v".data, some "m".data,
      some [⟨some "h".data, some 0, some "c".data⟩]⟩]
    [⟨"p".data, "1".data, "v".data,
      [⟨"h".data, "1970-01-01 ".data, " 00:00".data, "c".data⟩], "m".data⟩]
    rfl rfl).1

/-! ### Helper definitions and lemmas about the writer -/

/-- No newline character occurs in the string (clean field values; the
writer performs no escaping). -/
abbrev noNl (s : Chars) : Prop := '\n' ∉ s

/-- All four rendered fields of a transaction are newline-free. -/
abbrev txnNoNl (t : Txn) : Prop :=
  noNl t.tx_hash ∧ noNl t.tx_date ∧ noNl t.tx_time ∧ noNl t.tx_chain

/-- The physical row the writer emits for every transaction after the
first: the placeholder cells of the space-comma run, then the
transaction cells. -/
def laterRowChars (t : Txn) : Chars := " , , ,".data ++ txnCellsBody t

/-- The text written for the transactions after the first: each later
row followed by its newline. -/
def laterFlat : List Txn → Chars
  | [] => []
  | t :: rest => laterRowChars t ++ ['\n'] ++ laterFlat rest

theorem txnRowsAux_pos (l : List Txn) :
    ∀ i, i ≠ 0 → txnRowsAux i l = laterFlat l := by
  induction l with
  | nil => intro i h; rfl
  | cons t r ih =>
    intro i h
    simp only [txnRowsAux, if_pos h, laterFlat, laterRowChars,
      ih (i + 1) (Nat.succ_ne_zero i), List.append_assoc]

theorem noNl_txnCellsBody (t : Txn) (h : txnNoNl t) : '\n' ∉ txnCellsBody t := by
  rcases h with ⟨h1, h2, h3, h4⟩
  intro hmem
  simp only [txnCellsBody, List.mem_append, List.mem_singleton] at hmem
  rcases hmem with (((((((c | m) | c) | m) | c) | m) | c) | m)
  · exact absurd c (by decide)
  · exact h1 m
  · exact absurd c (by decide)
  · exact h2 m
  · exact absurd c (by decide)
  · exact h3 m
  · exact absurd c (by decide)
  · exact h4 m

theorem noNl_laterRowChars (t : Txn) (h : txnNoNl t) : '\n' ∉ laterRowChars t := by
  intro hmem
  rcases List.mem_append.mp hmem with m | m
  · exact absurd m (by decide)
  · exact noNl_txnCellsBody t h m

theorem noNl_incidentCells (a : AttackIncident) (hp : noNl a.project)
    (hl : noNl a.loss) (hv : noNl a.vulnerability) (hr : noNl a.rootCause) :
    '\n' ∉ incidentCells a := by
  intro hmem
  simp only [incidentCells, List.mem_append, List.mem_singleton] at hmem
  rcases hmem with (((((m | c) | m) | c) | m) | c) | m
  · exact hp m
  · exact absurd c (by decide)
  · exact hl m
  · exact absurd c (by decide)
  · exact hv m
  · exact absurd c (by decide)
  · exact hr m

theorem split_laterFlat (l : List Txn) (h : ∀ x ∈ l, txnNoNl x) :
    pySplit '\n' (laterFlat l) = l.map laterRowChars ++ [[]] := by
  induction l with
  | nil => rfl
  | cons t r ih =>
    have hshape : laterFlat (t :: r) = laterRowChars t ++ '\n' :: laterFlat r := by
      simp only [laterFlat, List.append_assoc, List.singleton_append]
    rw [hshape,
      pySplit_append_sep '\n' (laterRowChars t) (laterFlat r)
        (noNl_laterRowChars t (h t (List.mem_cons_self t r))),
      ih fun x hx => h x (List.mem_cons_of_mem t hx)]
    rfl

theorem pySplit_exists_cons (sep : Char) (L : List Char) :
    ∃ h t, pySplit sep L = h :: t := by
  cases hs : pySplit sep L with
  | nil => exact absurd hs (pySplit_ne_nil sep L)
  | cons a b => exact ⟨a, b, rfl⟩

/-! ### Claims about the writer (C2, C3) -/

/-- C2: the claim states that a zero-transaction incident still becomes
a valid Incident (true: the transformer yields it with an empty
transaction list) and that the writer emits exactly one terminated row
with empty transaction columns for it (false: the incident-level cells
are written with no trailing newline and the transaction loop writes
nothing, so the next incident's row is appended to the same physical
line).  Here a file with two incidents, the first without transactions,
contains a single merged data line. -/
theorem c2_zero_txn_row_merged :
    process_data (some ⟨some [⟨some "A".data, some "1".data, some "v".data,
        some "m".data, some []⟩]⟩) =
      Except.ok [⟨"A".data, "1".data, "v".data, [], "m".data⟩] ∧
    pySplit '\n' (write_to_csv [⟨"A".data, "1".data, "v".data, [], "m".data⟩,
        ⟨"B".data, "2".data, "w".data, [⟨"h".data, "d".data, "t".data, "c".data⟩],
          "s".data⟩]) =
      [header_row, "A,1,v,mB,2,w,s,h,d,t,c".data, []] :=
  ⟨rfl, by decide⟩

/-- C3, counterexample: the claim states that every row after the first
carries empty placeholders for all incident-level columns; the code
writes a space-comma run, so three of the four placeholder cells contain
a single space rather than being empty. -/
theorem c3_counterexample :
    (pySplit ','
        ((pySplit '\n' (write_to_csv [⟨"p".data, "1".data, "v".data,
            [⟨"h".data, "d".data, "t".data, "c".data⟩,
              ⟨"h2".data, "d2".data, "t2".data, "c2".data⟩], "r".data⟩])).getD 2 [])).take 4
      ≠ [[], [], [], []] := by decide

/-- C3, amended: for an incident with N at least 1 transactions (and
newline-free field values) the writer emits exactly N physical rows: the
first carries the incident-level cells followed by the first
transaction's cells, and every later row carries blank placeholders for
the four incident-level columns - a single space in each of the first
three cells and an empty fourth cell - followed by its transaction's
cells. -/
theorem c3_denormalized_rows (a : AttackIncident) (t : Txn) (rest : List Txn)
    (htx : a.transactions = t :: rest)
    (hp : noNl a.project) (hl : noNl a.loss) (hv : noNl a.vulnerability)
    (hr : noNl a.rootCause) (hts : ∀ x ∈ a.transactions, txnNoNl x) :
    pySplit '\n' (write_to_csv [a]) =
      header_row :: (incidentCells a ++ txnCellsBody t) :: (rest.map laterRowChars ++ [[]]) ∧
    (rest.map laterRowChars).length + 1 = a.transactions.length := by
  have htclean : txnNoNl t := hts t (htx ▸ List.mem_cons_self t rest)
  have hrestclean : ∀ x ∈ rest, txnNoNl x :=
    fun x hx => hts x (htx ▸ List.mem_cons_of_mem t hx)
  have hfile : write_to_csv [a] =
      header_row ++ '\n' :: ((incidentCells a ++ txnCellsBody t) ++ '\n' :: laterFlat rest) := by
    rw [write_to_csv, writeIncidents, writeIncidents, htx, txnRowsAux,
      txnRowsAux_pos rest 1 (Nat.succ_ne_zero 0)]
    simp only [ne_eq, not_true_eq_false, if_neg, if_false, List.append_assoc,
      List.nil_append, List.append_nil, List.singleton_append]
  rw [hfile,
    pySplit_append_sep '\n' header_row _ (by decide),
    pySplit_append_sep '\n' (incidentCells a ++ txnCellsBody t) _
      (fun hmem => by
        rcases List.mem_append.mp hmem with m | m
        · exact noNl_incidentCells a hp hl hv hr m
        · exact noNl_txnCellsBody t htclean m),
    split_laterFlat rest hrestclean]
  refine ⟨rfl, ?_⟩
  rw [htx]
  simp [List.length_map]

/-- Witness for C3 at a concrete two-transaction incident. -/
theorem c3_witness :
    pySplit '\n' (write_to_csv [⟨"p".data, "1".data, "v".data,
        [⟨"h".data, "d".data, "t".data, "c".data⟩,
          ⟨"h2".data, "d2".data, "t2".data, "c2".data⟩], "r".data⟩]) =
      header_row ::
        (incidentCells ⟨"p".data, "1".data, "v".data,
            [⟨"h".data, "d".data, "t".data, "c".data⟩,
              ⟨"h2".data, "d2".data, "t2".data, "c2".data⟩], "r".data⟩ ++
          txnCellsBody ⟨"h".data, "d".data, "t".data, "c".data⟩) ::
        ([⟨"h2".data, "d2".data, "t2".data, "c2".data⟩].map laterRowChars ++ [[]]) ∧
    ([(⟨"h2".data, "d2".data, "t2".data, "c2".data⟩ : Txn)].map laterRowChars).length + 1 =
      (⟨"p".data, "1".data, "v".data,
        [⟨"h".data, "d".data, "t".data, "c".data⟩,
          ⟨"h2".data, "d2".data, "t2".data, "c2".data⟩], "r".data⟩ :
          AttackIncident).transactions.length :=
  c3_denormalized_rows
    ⟨"p".data, "1".data, "v".data,
      [⟨"h".data, "d".data, "t".data, "c".data⟩,
        ⟨"h2".data, "d2".data, "t2".data, "c2".data⟩], "r".data⟩
    ⟨"h".data, "d".data, "t".data, "c".data⟩
    [⟨"h2".data, "d2".data, "t2".data, "c2".data⟩]
    rfl (by decide) (by decide) (by decide) (by decide) (by decide)

/-! ### Claim C7: round-trip identity on the scalar fields -/

/-- C7: for a valid raw record (one the transformer accepts, whose
project, loss and vulnerability values contain no delimiter characters -
the writer performs no escaping), transforming it and writing the result
to the file, then re-reading the first three comma-separated fields of
the first data line, returns the record's project, loss and
vulnerability values unchanged. -/
theorem c7_roundtrip_scalars (r : RawRecord) (p lo v : Chars)
    (incs : List AttackIncident)
    (hp : r.project = some p) (hl : r.loss = some lo) (hv : r.rootCause = some v)
    (hpc : ',' ∉ p) (hpn : '\n' ∉ p) (hlc : ',' ∉ lo) (hln : '\n' ∉ lo)
    (hvc : ',' ∉ v) (hvn : '\n' ∉ v)
    (hproc : process_data (some ⟨some [r]⟩) = Except.ok incs) :
    read_scalar_fields (write_to_csv incs) = [p, lo, v] := by
  have hproc' : process_records [r] = Except.ok incs := hproc
  simp only [process_records, except_pure, except_bind_ok] at hproc'
  cases hr : process_record r with
  | error e => rw [hr, except_bind_error] at hproc'; exact Except.noConfusion hproc'
  | ok inc =>
  rw [hr, except_bind_ok] at hproc'
  rcases Except.ok.inj hproc' with rfl
  rcases process_record_ok r inc hr with ⟨hpr, hlo, hvu, _, _⟩
  rw [hp] at hpr
  rw [hl] at hlo
  rw [hv] at hvu
  have hip : inc.project = p := (Option.some.inj hpr).symm
  have hil : inc.loss = lo := (Option.some.inj hlo).symm
  have hiv : inc.vulnerability = v := (Option.some.inj hvu).symm
  have hfile : write_to_csv [inc] =
      header_row ++ '\n' ::
        (p ++ ',' :: (lo ++ ',' :: (v ++ ',' ::
          (inc.rootCause ++ txnRowsAux 0 inc.transactions)))) := by
    rw [write_to_csv, writeIncidents, writeIncidents, incidentCells, hip, hil, hiv]
    simp only [List.append_assoc, List.cons_append, List.singleton_append,
      List.append_nil, List.nil_append]
  have hAB : (p ++ ',' :: (lo ++ ',' :: (v ++ ',' ::
        (inc.rootCause ++ txnRowsAux 0 inc.transactions)))) =
      (p ++ ',' :: (lo ++ ',' :: (v ++ [','])))
        ++ (inc.rootCause ++ txnRowsAux 0 inc.transactions) := by
    simp only [List.append_assoc, List.cons_append, List.singleton_append, List.nil_append]
  have hAnl : '\n' ∉ (p ++ ',' :: (lo ++ ',' :: (v ++ [',']))) := by
    intro hmem
    simp only [List.mem_append, List.mem_cons, List.mem_singleton,
      List.not_mem_nil, or_false] at hmem
    rcases hmem with m | c | m | c | m | c
    · exact hpn m
    · exact absurd c (by decide)
    · exact hln m
    · exact absurd c (by decide)
    · exact hvn m
    · exact absurd c (by decide)
  obtain ⟨line, tail, hlt⟩ := pySplit_exists_cons '\n'
    ((p ++ ',' :: (lo ++ ',' :: (v ++ [','])))
      ++ (inc.rootCause ++ txnRowsAux 0 inc.transactions))
  have hhead := pySplit_head_prepend '\n' (p ++ ',' :: (lo ++ ',' :: (v ++ [','])))
    (inc.rootCause ++ txnRowsAux 0 inc.transactions) hAnl
  rw [hlt] at hhead
  have hline : line = (p ++ ',' :: (lo ++ ',' :: (v ++ [','])))
      ++ (pySplit '\n' (inc.rootCause ++ txnRowsAux 0 inc.transactions)).headD [] := by
    simpa using hhead
  simp only [read_scalar_fields]
  rw [hfile, hAB, pySplit_append_sep '\n' header_row _ (by decide), hlt]
  show (pySplit ',' line).take 3 = [p, lo, v]
  rw [hline]
  have hassoc : (p ++ ',' :: (lo ++ ',' :: (v ++ [','])))
      ++ (pySplit '\n' (inc.rootCause ++ txnRowsAux 0 inc.transactions)).headD []
      = p ++ ',' :: (lo ++ ',' :: (v ++ ',' ::
          (pySplit '\n' (inc.rootCause ++ txnRowsAux 0 inc.transactions)).headD [])) := by
    simp only [List.append_assoc, List.cons_append, List.singleton_append, List.nil_append]
  rw [hassoc, pySplit_append_sep ',' p _ hpc, pySplit_append_sep ',' lo _ hlc,
    pySplit_append_sep ',' v _ hvc]
  rfl

/-- Witness for C7 at a concrete one-transaction record. -/
theorem c7_witness :
    read_scalar_fields (write_to_csv [⟨"proj".data, "100".data, "vuln".data,
        [⟨"h".data, "1970-01-01 ".data, " 00:00".data, "1".data⟩], "m".data⟩]) =
      ["proj".data, "100".data, "vuln".data] :=
  c7_roundtrip_scalars
    ⟨some "proj".data, some "100".data, some "vuln".data, some "m".data,
      some [⟨some "h".data, some 0, some "1".data⟩]⟩
    "proj".data "100".data "vuln".data
    [⟨"proj".data, "100".data, "vuln".data,
      [⟨"h".data, "1970-01-01 ".data, " 00:00".data, "1".data⟩], "m".data⟩]
    rfl rfl rfl (by decide) (by decide) (by decide) (by decide) (by decide) (by decide)
    rfl

